import Mathlib

/-!
Shallow embedding of the availability-based booking engine of
`app/services/calendar_service.py` (FAL_user_service).

Modelling conventions:
* `HH:MM` wall-clock strings are represented by their minute count since
  midnight (`WallTime := Nat`); the string helper `_normalise_time` (which
  trims `"08:00:00"` to `"08:00"`) therefore disappears, and the parse step
  of `create_booking` is taken to have succeeded (its inputs arrive here
  already as minute counts).
* Calendar dates are day ordinals (`CalDate := Int`), anchored so that day 0
  is a Monday; `weekday` mirrors Python `date.weekday()` (Monday = 0).
* Absolute instants (`datetime` values) are minutes since the epoch, as
  `Int`; `datetime.combine(date, t, tzinfo=timezone.utc)` becomes
  `combineUTC`.  `datetime.now(timezone.utc)` is the explicit `now`
  argument threaded through each operation.
* The Supabase tables are a `StoreState` record of lists; `maybe_single`
  on a unique key becomes `List.find?`, inserts append, updates map.
* Python truthiness on optional integer settings (`settings.get(k)`)
  is `isTruthy`: absent or zero means the check is skipped.
* Booking rows always carry a date and both times (every insert of the
  service provides them), so the defensive `continue` / `.get` branches of
  the source that guard against null times are vacuous here.
-/

namespace FalCalendar

/-- Wall-clock time of day, in minutes since midnight (models an `HH:MM` value). -/
abbrev WallTime := Nat

/-- A calendar date as a day ordinal; day 0 is a Monday. -/
abbrev CalDate := Int

/-- Python `date.weekday()`: 0 = Monday … 6 = Sunday. -/
def weekday (d : CalDate) : Nat := (d % 7).toNat

/-- `datetime.combine(booking_date, t, tzinfo=timezone.utc)`, in minutes since epoch. -/
def combineUTC (d : CalDate) (t : WallTime) : Int := d * 1440 + (t : Int)

/-- Python truthiness of an optional integer setting: `settings.get(k)` is
falsy when the key is absent or its value is `0`. -/
def isTruthy : Option Nat → Bool
  | none => false
  | some n => n != 0

/-- Row of the singleton `calendar_settings` table (cf. `CalendarSettingsCreate`).
The stored time zone is abstracted to its UTC offset in minutes; the service
code never reads it. -/
structure Settings where
  tz_offset_minutes : Int
  min_booking_notice_minutes : Option Nat
  max_advance_booking_days : Option Nat
  allow_cancellation : Bool
  cancellation_notice_minutes : Option Nat
  allow_booking_outside_availability : Bool
deriving Repr, DecidableEq

/-- Row of `admin_availability_general` (one per weekday, unique key `day_of_week`). -/
structure GeneralRow where
  day_of_week : Nat
  is_enabled : Bool
  start_time : WallTime
  end_time : WallTime
deriving Repr, DecidableEq

/-- Row of `admin_availability_overrides` (unique key `override_date`). -/
structure OverrideRow where
  override_date : CalDate
  is_closed : Bool
  start_time : Option WallTime
  end_time : Option WallTime
  notes : Option String
deriving Repr, DecidableEq

/-- Row of the `bookings` table. -/
structure Booking where
  id : Nat
  user_id : String
  booking_date : CalDate
  start_time : WallTime
  end_time : WallTime
  status : String
  cancelled_at : Option Int
  notes : Option String
deriving Repr, DecidableEq

/-- The durable store: the four tables the calendar service touches, plus a
fresh-id counter for booking inserts. -/
structure StoreState where
  settings : Option Settings
  general : List GeneralRow
  overrides : List OverrideRow
  bookings : List Booking
  nextId : Nat
deriving Repr, DecidableEq

/-- Default weekday row synthesized by `get_general_availability` for a
weekday missing from the store: enabled Monday–Friday, 08:00–17:00. -/
def defaultGeneralRow (d : Nat) : GeneralRow :=
  { day_of_week := d, is_enabled := decide (d < 5), start_time := 480, end_time := 1020 }

/-- `get_general_availability`: always 7 rows, one per weekday 0…6; missing
weekdays are seeded with `defaultGeneralRow`.  The Python dict comprehension
`{r["day_of_week"]: r for r in rows}` keeps the last row per key, hence the
`reverse` before `find?`. -/
def get_general_availability (rows : List GeneralRow) : List GeneralRow :=
  (List.range 7).map (fun d =>
    match rows.reverse.find? (fun r => r.day_of_week == d) with
    | some r => r
    | none => defaultGeneralRow d)

/-- Result shape of `_get_day_availability` (a Python dict; the closed case
carries no time keys). -/
structure DayAvail where
  is_available : Bool
  start_time : Option WallTime := none
  end_time : Option WallTime := none
deriving Repr, DecidableEq

/-- The general-weekday fallback branch of `_get_day_availability`: the raw
`admin_availability_general` row for the date's weekday, closed if absent. -/
def generalDayAvailability (general : List GeneralRow) (bd : CalDate) : DayAvail :=
  match general.find? (fun g => g.day_of_week == weekday bd) with
  | some g =>
      { is_available := g.is_enabled,
        start_time := if g.is_enabled then some g.start_time else none,
        end_time := if g.is_enabled then some g.end_time else none }
  | none => { is_available := false }

/-- `_get_day_availability`: a date override wins; otherwise the weekly row. -/
def get_day_availability (st : StoreState) (bd : CalDate) : DayAvail :=
  match st.overrides.find? (fun o => o.override_date == bd) with
  | some o =>
      if o.is_closed then { is_available := false }
      else { is_available := true, start_time := o.start_time, end_time := o.end_time }
  | none => generalDayAvailability st.general bd

/-- One entry of the `days` list built by `get_public_availability`. -/
structure PublicDay where
  pdate : CalDate
  is_available : Bool
  start_time : Option WallTime
  end_time : Option WallTime
  is_override : Bool
  notes : Option String
deriving Repr, DecidableEq

/-- The override-map lookup of `get_public_availability`: overrides are
pre-filtered to `[date_from, date_to]` before being keyed by date. -/
def overrideInRange (st : StoreState) (df dt d : CalDate) : Option OverrideRow :=
  st.overrides.find? (fun o =>
    (decide (df ≤ o.override_date) && decide (o.override_date ≤ dt)) && o.override_date == d)

/-- The per-day entry built inside the loop of `get_public_availability`. -/
def publicDayFor (st : StoreState) (df dt d : CalDate) : PublicDay :=
  match overrideInRange st df dt d with
  | some o =>
      { pdate := d, is_available := !o.is_closed, start_time := o.start_time,
        end_time := o.end_time, is_override := true, notes := o.notes }
  | none =>
      match (get_general_availability st.general)[weekday d]? with
      | some g =>
          { pdate := d, is_available := g.is_enabled,
            start_time := if g.is_enabled then some g.start_time else none,
            end_time := if g.is_enabled then some g.end_time else none,
            is_override := false, notes := none }
      | none =>
          { pdate := d, is_available := false, start_time := none,
            end_time := none, is_override := false, notes := none }

/-- The `days` list of `get_public_availability`: one entry per date in
`[date_from, date_to]`, ascending. -/
def public_availability_days (st : StoreState) (df dt : CalDate) : List PublicDay :=
  (List.range (dt + 1 - df).toNat).map (fun i => publicDayFor st df dt (df + Int.ofNat i))

/-- Result type of `create_booking` (Python returns the booking dict or an
error-message string). -/
inductive CreateResult where
  | ok (b : Booking)
  | err (msg : String)
deriving Repr, DecidableEq

/-- `settings.get("allow_booking_outside_availability", False)` with a
possibly-unconfigured settings row. -/
def allowOutside : Option Settings → Bool
  | some s => s.allow_booking_outside_availability
  | none => false

/-- The minimum-notice gate of `create_booking`:
`settings and settings.get("min_booking_notice_minutes")` (truthiness),
then reject when `booking_start - now < timedelta(minutes=m)`. -/
def minNoticeViolation (s : Option Settings) (bd : CalDate) (startT : WallTime) (now : Int) : Bool :=
  match s with
  | none => false
  | some sett =>
      match sett.min_booking_notice_minutes with
      | none => false
      | some m => (m != 0) && decide (combineUTC bd startT - now < (m : Int))

/-- The maximum-advance gate of `create_booking`: truthiness on
`max_advance_booking_days`, then reject when
`booking_start - now > timedelta(days=a)`. -/
def maxAdvanceViolation (s : Option Settings) (bd : CalDate) (startT : WallTime) (now : Int) : Bool :=
  match s with
  | none => false
  | some sett =>
      match sett.max_advance_booking_days with
      | none => false
      | some a => (a != 0) && decide (combineUTC bd startT - now > (a : Int) * 1440)

/-- The availability section of `create_booking`: skipped entirely when
`allow_booking_outside_availability`; otherwise the date must be available,
and only when the effective window has both ends present is containment
enforced. -/
def availabilityError (st : StoreState) (bd : CalDate) (startT endT : WallTime) : Option String :=
  if allowOutside st.settings then none
  else
    let avail := get_day_availability st bd
    if !avail.is_available then some "No availability on this date"
    else
      match avail.start_time, avail.end_time with
      | some aStart, some aEnd =>
          if decide (startT < aStart) || decide (endT > aEnd) then
            some "Booking outside available hours"
          else none
      | _, _ => none

/-- The overlap scan of `create_booking`: any `confirmed` booking on the same
date with `start_t < b.end ∧ end_t > b.start`. -/
def overlapsConfirmed (bs : List Booking) (bd : CalDate) (startT endT : WallTime) : Bool :=
  bs.any (fun b =>
    b.booking_date == bd && b.status == "confirmed" &&
    (decide (startT < b.end_time) && decide (endT > b.start_time)))

/-- `create_booking`: validation pipeline then insert with `status=confirmed`. -/
def create_booking (st : StoreState) (bd : CalDate) (startT endT : WallTime)
    (userId : String) (notes : Option String) (now : Int) : CreateResult × StoreState :=
  if startT ≥ endT then (.err "start_time must be before end_time", st)
  else if minNoticeViolation st.settings bd startT now then
    (.err "Booking too close to start time", st)
  else if maxAdvanceViolation st.settings bd startT now then
    (.err "Booking too far in the future", st)
  else
    match availabilityError st bd startT endT with
    | some msg => (.err msg, st)
    | none =>
        if overlapsConfirmed st.bookings bd startT endT then
          (.err "Time overlaps with an existing booking", st)
        else
          let b : Booking :=
            { id := st.nextId, user_id := userId, booking_date := bd,
              start_time := startT, end_time := endT, status := "confirmed",
              cancelled_at := none, notes := notes }
          (.ok b, { st with bookings := st.bookings ++ [b], nextId := st.nextId + 1 })

/-- The owner filter of `cancel_booking`'s lookup query: applied only when a
`user_id` was passed (admin callers pass none). -/
def ownerMatches (userId : Option String) (b : Booking) : Bool :=
  match userId with
  | none => true
  | some u => b.user_id == u

/-- The cancellation-notice gate of `cancel_booking`: only for non-admin
callers, truthiness on `cancellation_notice_minutes`, then block when
`booking_start - now < timedelta(minutes=m)`. -/
def cancellationNoticeBlocked (s : Option Settings) (b : Booking) (now : Int) : Bool :=
  match s with
  | none => false
  | some sett =>
      match sett.cancellation_notice_minutes with
      | none => false
      | some m => (m != 0) && decide (combineUTC b.booking_date b.start_time - now < (m : Int))

/-- The row update performed by `cancel_booking`'s final
`update({status: "cancelled", cancelled_at: now}).eq("id", booking_id)`. -/
def cancelMark (bookingId : Nat) (now : Int) (x : Booking) : Booking :=
  if x.id == bookingId then { x with status := "cancelled", cancelled_at := some now }
  else x

/-- `cancel_booking`: find a `confirmed` booking by id (and owner for
non-admins), gate on `allow_cancellation` and the notice window, then flip
the matching row to `cancelled`. -/
def cancel_booking (st : StoreState) (bookingId : Nat) (userId : Option String)
    (now : Int) : Bool × StoreState :=
  match st.bookings.find? (fun b =>
      b.id == bookingId && b.status == "confirmed" && ownerMatches userId b) with
  | none => (false, st)
  | some b =>
      if (match st.settings with | some s => !s.allow_cancellation | none => false) then
        (false, st)
      else if userId.isSome && cancellationNoticeBlocked st.settings b now then
        (false, st)
      else
        (true, { st with bookings := st.bookings.map (cancelMark bookingId now) })

/-- The date-range/status filters of `get_all_bookings` (each optional,
conjunctive; an empty status string is falsy in Python, so it filters
nothing). -/
def passesDateFrom (df : Option CalDate) (b : Booking) : Bool :=
  match df with
  | none => true
  | some d => decide (d ≤ b.booking_date)

def passesDateTo (dt : Option CalDate) (b : Booking) : Bool :=
  match dt with
  | none => true
  | some d => decide (b.booking_date ≤ d)

def passesStatus (sf : Option String) (b : Booking) : Bool :=
  match sf with
  | none => true
  | some s => s == "" || b.status == s

/-- The `order("booking_date", desc=True)` relation: later booking dates first. -/
def bookingGE (a b : Booking) : Prop := b.booking_date ≤ a.booking_date

instance : DecidableRel bookingGE := fun _ _ => Int.decLe _ _

instance : IsTotal Booking bookingGE :=
  ⟨fun a b => le_total b.booking_date a.booking_date⟩

instance : IsTrans Booking bookingGE :=
  ⟨fun _ _ _ h1 h2 => le_trans h2 h1⟩

/-- `get_all_bookings`: filter, then order by booking date descending. -/
def get_all_bookings (st : StoreState) (df dt : Option CalDate) (sf : Option String) :
    List Booking :=
  List.insertionSort bookingGE
    (st.bookings.filter (fun b => passesDateFrom df b && passesDateTo dt b && passesStatus sf b))

/-- `get_user_bookings`: one owner's bookings, ordered by booking date descending. -/
def get_user_bookings (st : StoreState) (uid : String) : List Booking :=
  List.insertionSort bookingGE (st.bookings.filter (fun b => b.user_id == uid))

/-- States reachable from an empty booking ledger through the service's
operations (admin reconfiguration of settings/template/overrides never
touches the `bookings` table). -/
inductive Reachable : StoreState → Prop
  | init (s : Option Settings) (g : List GeneralRow) (o : List OverrideRow) :
      Reachable ⟨s, g, o, [], 0⟩
  | reconfig (st : StoreState) (s : Option Settings) (g : List GeneralRow)
      (o : List OverrideRow) :
      Reachable st → Reachable { st with settings := s, general := g, overrides := o }
  | create (st : StoreState) (bd : CalDate) (startT endT : WallTime) (u : String)
      (n : Option String) (now : Int) :
      Reachable st → Reachable (create_booking st bd startT endT u n now).2
  | cancel (st : StoreState) (bid : Nat) (u : Option String) (now : Int) :
      Reachable st → Reachable (cancel_booking st bid u now).2

/-- No two confirmed bookings on the same date overlap, as half-open
intervals `[start, end)`. -/
def bookingsDisjoint (bs : List Booking) : Prop :=
  bs.Pairwise (fun a b =>
    a.booking_date = b.booking_date → a.status = "confirmed" → b.status = "confirmed" →
    ¬(a.start_time < b.end_time ∧ a.end_time > b.start_time))

/-- The five rejection messages of `create_booking`'s validation pipeline
(the availability step owns two of them). -/
def createRejectionMessages : List String :=
  ["start_time must be before end_time",
   "Booking too close to start time",
   "Booking too far in the future",
   "No availability on this date",
   "Booking outside available hours",
   "Time overlaps with an existing booking"]

/-- Interpretation used by the specification (claim side only): combine a
date and wall time into an absolute instant under the configured zone,
i.e. subtract the zone's UTC offset from the UTC combination. -/
def combineWithZone (tzOffset : Int) (d : CalDate) (t : WallTime) : Int :=
  combineUTC d t - tzOffset

/-! Concrete store states used as witnesses and counterexamples below.
`Settings` fields in anonymous-constructor order: tz offset, min notice
minutes, max advance days, allow cancellation, cancellation notice minutes,
allow booking outside availability. -/

def stEmpty : StoreState := ⟨none, [], [], [], 0⟩

def st3 : StoreState :=
  { settings := none, general := [⟨0, true, 480, 1020⟩],
    overrides := [⟨2, false, some 300, some 400, none⟩],
    bookings := [], nextId := 0 }

def st10 : StoreState :=
  { settings := none, general := [], overrides := [⟨0, false, none, some 600, none⟩],
    bookings := [], nextId := 0 }

def st5 : StoreState :=
  { settings := none, general := [], overrides := [],
    bookings := [⟨1, "alice", 0, 540, 600, "confirmed", none, none⟩],
    nextId := 2 }

def st6 : StoreState :=
  { settings := some ⟨0, none, none, true, some 0, false⟩,
    general := [], overrides := [],
    bookings := [⟨1, "alice", 0, 540, 600, "confirmed", none, none⟩],
    nextId := 2 }

def sett6 : Settings :=
  { tz_offset_minutes := 0, min_booking_notice_minutes := none,
    max_advance_booking_days := none, allow_cancellation := false,
    cancellation_notice_minutes := none, allow_booking_outside_availability := false }

def st6b : StoreState :=
  { settings := some sett6, general := [], overrides := [],
    bookings := [⟨1, "alice", 0, 540, 600, "confirmed", none, none⟩],
    nextId := 2 }

def sett4 : Settings :=
  { tz_offset_minutes := 0, min_booking_notice_minutes := some 30,
    max_advance_booking_days := none, allow_cancellation := true,
    cancellation_notice_minutes := none, allow_booking_outside_availability := true }

def st4w : StoreState :=
  { settings := some sett4, general := [], overrides := [], bookings := [], nextId := 0 }

def st4 : StoreState :=
  { settings := some ⟨0, some 0, none, true, none, true⟩,
    general := [], overrides := [], bookings := [], nextId := 0 }

def st7 : StoreState :=
  { settings := some ⟨120, some 30, none, true, none, true⟩,
    general := [], overrides := [], bookings := [], nextId := 0 }

def st8 : StoreState :=
  { settings := none, general := [], overrides := [],
    bookings := [⟨1, "u", 5, 540, 600, "confirmed", none, none⟩,
                 ⟨2, "u", 3, 540, 600, "confirmed", none, none⟩],
    nextId := 3 }

/-- C9: `get_general_availability` always returns exactly 7 weekly-template
entries, one per `day_of_week` 0…6 in ascending order (the entry at position
`d` is for weekday `d`), and any weekday missing from the store is
synthesized as the default row: enabled exactly for `d < 5`, window
08:00–17:00 (480–1020 minutes). -/
theorem c9_general_availability_complete (rows : List GeneralRow) :
    (get_general_availability rows).length = 7
  ∧ (∀ d (h : d < (get_general_availability rows).length),
       ((get_general_availability rows).get ⟨d, h⟩).day_of_week = d)
  ∧ (∀ d (h : d < (get_general_availability rows).length),
       (∀ r ∈ rows, r.day_of_week ≠ d) →
       (get_general_availability rows).get ⟨d, h⟩ = defaultGeneralRow d) := by
  refine ⟨by simp [get_general_availability], ?_, ?_⟩
  · intro d h
    simp only [get_general_availability, List.get_eq_getElem, List.getElem_map,
      List.getElem_range]
    rcases hf : rows.reverse.find? (fun r => r.day_of_week == d) with _ | r
    · simp [hf, defaultGeneralRow]
    · have hr := List.find?_some hf
      simp only [hf]
      simpa using hr
  · intro d h hmiss
    have hnone : rows.reverse.find? (fun r => r.day_of_week == d) = none := by
      rw [List.find?_eq_none]
      intro r hr
      simpa using hmiss r (List.mem_reverse.mp hr)
    simp [get_general_availability, hnone]

/-- Auxiliary witness for C9: on an empty store the first returned entry is
the synthesized Monday default. -/
theorem c9_witness :
    (get_general_availability []).length = 7
  ∧ (get_general_availability []).get ⟨0, by decide⟩ = defaultGeneralRow 0 :=
  ⟨(c9_general_availability_complete []).1,
   (c9_general_availability_complete []).2.2 0 (by decide) (by simp)⟩

/-- C3: a date override takes precedence: when an override row exists for the
exact date, `_get_day_availability` returns closed if `is_closed`, else the
override's own window, independently of the weekly template; the weekly
template is consulted only when no override exists for the date.  The same
precedence holds for each per-day entry of `get_public_availability`. -/
theorem c3_override_precedence (st : StoreState) (bd : CalDate) :
    (∀ o, st.overrides.find? (fun o2 => o2.override_date == bd) = some o →
       get_day_availability st bd =
         (if o.is_closed then { is_available := false }
          else { is_available := true, start_time := o.start_time, end_time := o.end_time })
       ∧ ∀ g2, get_day_availability { st with general := g2 } bd = get_day_availability st bd)
  ∧ (st.overrides.find? (fun o2 => o2.override_date == bd) = none →
       get_day_availability st bd = generalDayAvailability st.general bd)
  ∧ (∀ df dt (i : Nat) o (h : i < (public_availability_days st df dt).length),
       overrideInRange st df dt (df + (i : Int)) = some o →
       (public_availability_days st df dt).get ⟨i, h⟩ =
         { pdate := df + (i : Int), is_available := !o.is_closed,
           start_time := o.start_time, end_time := o.end_time,
           is_override := true, notes := o.notes }) := by
  refine ⟨?_, ?_, ?_⟩
  · intro o hf
    constructor
    · simp [get_day_availability, hf]
    · intro g2
      simp [get_day_availability, hf]
  · intro hf
    simp [get_day_availability, hf]
  · intro df dt i o h hf
    have hi : (public_availability_days st df dt).get ⟨i, h⟩ =
        publicDayFor st df dt (df + (i : Int)) := by
      simp only [public_availability_days, List.get_eq_getElem]
      rw [List.getElem_map, List.getElem_range]
      rfl
    rw [hi]
    unfold publicDayFor
    rw [hf]

/-- Auxiliary witness for C3: an open override for date 2 is returned verbatim. -/
theorem c3_witness :
    get_day_availability st3 2 =
      { is_available := true, start_time := some 300, end_time := some 400 } := by
  have h := ((c3_override_precedence st3 2).1 ⟨2, false, some 300, some 400, none⟩
    (by decide)).1
  simpa using h

/-- C10: when the effective availability of the date is open but its window is
missing a start or an end, `create_booking` never rejects for being outside
available hours, and — once the interval is well-formed and the notice,
advance and overlap checks pass — it admits the booking. -/
theorem c10_null_window_skips_containment (st : StoreState) (bd : CalDate)
    (s e : WallTime) (u : String) (n : Option String) (now : Int)
    (hopen : (get_day_availability st bd).is_available = true)
    (hnull : (get_day_availability st bd).start_time = none ∨
             (get_day_availability st bd).end_time = none) :
    ((create_booking st bd s e u n now).1 ≠ .err "Booking outside available hours")
  ∧ (s < e → minNoticeViolation st.settings bd s now = false →
     maxAdvanceViolation st.settings bd s now = false →
     overlapsConfirmed st.bookings bd s e = false →
     ∃ b : Booking, create_booking st bd s e u n now =
       (.ok b, { st with bookings := st.bookings ++ [b], nextId := st.nextId + 1 })) := by
  have havail : availabilityError st bd s e = none := by
    unfold availabilityError
    rcases hao : allowOutside st.settings with _ | _
    · simp only [Bool.false_eq_true, if_false]
      rw [hopen]
      rcases hnull with h1 | h1
      · rw [h1]; simp
      · rw [h1]
        rcases (get_day_availability st bd).start_time with _ | v <;> simp
    · simp
  constructor
  · unfold create_booking
    rw [havail]
    split
    · simp
    split
    · simp
    split
    · simp
    split
    · simp_all
    split
    · simp
    · simp
  · intro hlt hmn hma hov
    unfold create_booking
    rw [havail, if_neg (show ¬s ≥ e from not_le.mpr hlt), hmn, hma]
    simp only [Bool.false_eq_true, if_false, hov]
    exact ⟨_, rfl⟩

/-- Auxiliary witness for C10: an open override with no stored start time lets
a booking through with no outside-hours rejection. -/
theorem c10_witness :
    (create_booking st10 0 100 200 "u" none 0).1 ≠ .err "Booking outside available hours" :=
  (c10_null_window_skips_containment st10 0 100 200 "u" none 0 (by decide)
    (Or.inl (by decide))).1

lemma overlapsConfirmed_eq_false_iff (bs : List Booking) (bd : CalDate) (s e : WallTime) :
    overlapsConfirmed bs bd s e = false ↔
    ∀ b ∈ bs, b.booking_date = bd → b.status = "confirmed" →
      ¬(s < b.end_time ∧ e > b.start_time) := by
  simp only [overlapsConfirmed, List.any_eq_false, Bool.and_eq_true, beq_iff_eq,
    decide_eq_true_eq, not_and]
  constructor
  · intro h b hb hd hs
    intro hcon
    exact h b hb ⟨hd, hs⟩ hcon
  · intro h b hb hds
    exact h b hb hds.1 hds.2

lemma cancelMark_fields (bid : Nat) (now : Int) (x : Booking) :
    (cancelMark bid now x).booking_date = x.booking_date
  ∧ (cancelMark bid now x).start_time = x.start_time
  ∧ (cancelMark bid now x).end_time = x.end_time
  ∧ (cancelMark bid now x).id = x.id
  ∧ ((cancelMark bid now x).status = "confirmed" → x.status = "confirmed") := by
  unfold cancelMark
  split
  · refine ⟨rfl, rfl, rfl, rfl, fun h => ?_⟩
    simp at h
  · exact ⟨rfl, rfl, rfl, rfl, fun h => h⟩

lemma create_booking_preserves_disjoint (st : StoreState) (bd : CalDate) (s e : WallTime)
    (u : String) (n : Option String) (now : Int) (hd : bookingsDisjoint st.bookings) :
    bookingsDisjoint (create_booking st bd s e u n now).2.bookings := by
  unfold create_booking
  split
  · exact hd
  split
  · exact hd
  split
  · exact hd
  split
  · exact hd
  split
  · exact hd
  · rename_i hov
    have hno : overlapsConfirmed st.bookings bd s e = false := by
      simpa using hov
    rw [overlapsConfirmed_eq_false_iff] at hno
    unfold bookingsDisjoint at hd ⊢
    simp only []
    rw [List.pairwise_append]
    refine ⟨hd, List.pairwise_singleton _ _, ?_⟩
    intro a ha b2 hb2
    simp only [List.mem_singleton] at hb2
    subst hb2
    intro hdate hconfA _
    intro hcon
    exact hno a ha hdate hconfA ⟨hcon.2, hcon.1⟩

lemma cancel_booking_preserves_disjoint (st : StoreState) (bid : Nat)
    (uid : Option String) (now : Int) (hd : bookingsDisjoint st.bookings) :
    bookingsDisjoint (cancel_booking st bid uid now).2.bookings := by
  unfold cancel_booking
  split
  · exact hd
  split
  · exact hd
  split
  · exact hd
  · unfold bookingsDisjoint at hd ⊢
    simp only []
    rw [List.pairwise_map]
    refine hd.imp ?_
    intro a b hab hdate hca hcb
    obtain ⟨da, _, _, _, sa⟩ := cancelMark_fields bid now a
    obtain ⟨db, _, _, _, sb⟩ := cancelMark_fields bid now b
    intro hcon
    refine hab ?_ (sa hca) (sb hcb) ?_
    · rw [← da, ← db, hdate]
    · simpa [cancelMark_fields, da, db,
        (cancelMark_fields bid now a).2.1, (cancelMark_fields bid now a).2.2.1,
        (cancelMark_fields bid now b).2.1, (cancelMark_fields bid now b).2.2.1] using hcon

/-- C1: every state reachable through `create_booking` and `cancel_booking`
(from an empty ledger, under arbitrary admin reconfiguration) keeps the
`[start, end)` intervals of its confirmed bookings pairwise disjoint per
date: `create_booking` admits only when no confirmed booking on the date
satisfies `start < b.end ∧ end > b.start`, and cancellation only removes
bookings from the confirmed set. -/
theorem c1_no_overlap_invariant (st : StoreState) (h : Reachable st) :
    bookingsDisjoint st.bookings := by
  induction h with
  | init s g o => exact List.Pairwise.nil
  | reconfig st s g o _ ih => exact ih
  | create st bd s e u n now _ ih =>
      exact create_booking_preserves_disjoint st bd s e u n now ih
  | cancel st bid u now _ ih =>
      exact cancel_booking_preserves_disjoint st bid u now ih

/-- Auxiliary witness for C1: the invariant holds in the concrete state
reached by one booking creation from an empty store. -/
theorem c1_witness :
    bookingsDisjoint ((create_booking ⟨none, [], [], [], 0⟩ 0 540 600 "u" none 0).2).bookings :=
  c1_no_overlap_invariant _
    (Reachable.create ⟨none, [], [], [], 0⟩ 0 540 600 "u" none 0
      (Reachable.init none [] []))

/-- C2: `create_booking` validates in a fixed order with first-failure-wins
and pairwise-distinct rejection reasons: (1) malformed interval, (2) minimum
notice, (3) maximum advance, (4) availability / within-window unless
bypassed by `allow_booking_outside_availability`, (5) overlap against
existing confirmed bookings; on success it appends the booking with
`status = "confirmed"` carrying the request's fields and returns it. -/
lemma create_eq_malformed (st : StoreState) (bd : CalDate) (s e : WallTime)
    (u : String) (n : Option String) (now : Int) (h : e ≤ s) :
    create_booking st bd s e u n now = (.err "start_time must be before end_time", st) := by
  unfold create_booking
  rw [if_pos (show s ≥ e from h)]

lemma create_eq_notice (st : StoreState) (bd : CalDate) (s e : WallTime)
    (u : String) (n : Option String) (now : Int) (hlt : s < e)
    (hmn : minNoticeViolation st.settings bd s now = true) :
    create_booking st bd s e u n now = (.err "Booking too close to start time", st) := by
  unfold create_booking
  rw [if_neg (show ¬s ≥ e from not_le.mpr hlt), hmn]
  simp

lemma create_eq_advance (st : StoreState) (bd : CalDate) (s e : WallTime)
    (u : String) (n : Option String) (now : Int) (hlt : s < e)
    (hmn : minNoticeViolation st.settings bd s now = false)
    (hma : maxAdvanceViolation st.settings bd s now = true) :
    create_booking st bd s e u n now = (.err "Booking too far in the future", st) := by
  unfold create_booking
  rw [if_neg (show ¬s ≥ e from not_le.mpr hlt), hmn, hma]
  simp

lemma create_eq_avail (st : StoreState) (bd : CalDate) (s e : WallTime)
    (u : String) (n : Option String) (now : Int) (hlt : s < e)
    (hmn : minNoticeViolation st.settings bd s now = false)
    (hma : maxAdvanceViolation st.settings bd s now = false)
    (msg : String) (hav : availabilityError st bd s e = some msg) :
    create_booking st bd s e u n now = (.err msg, st) := by
  unfold create_booking
  rw [if_neg (show ¬s ≥ e from not_le.mpr hlt), hmn, hma, hav]
  simp

lemma create_eq_overlap (st : StoreState) (bd : CalDate) (s e : WallTime)
    (u : String) (n : Option String) (now : Int) (hlt : s < e)
    (hmn : minNoticeViolation st.settings bd s now = false)
    (hma : maxAdvanceViolation st.settings bd s now = false)
    (hav : availabilityError st bd s e = none)
    (hov : overlapsConfirmed st.bookings bd s e = true) :
    create_booking st bd s e u n now = (.err "Time overlaps with an existing booking", st) := by
  unfold create_booking
  rw [if_neg (show ¬s ≥ e from not_le.mpr hlt), hmn, hma, hav, hov]
  simp

lemma create_eq_success (st : StoreState) (bd : CalDate) (s e : WallTime)
    (u : String) (n : Option String) (now : Int) (hlt : s < e)
    (hmn : minNoticeViolation st.settings bd s now = false)
    (hma : maxAdvanceViolation st.settings bd s now = false)
    (hav : availabilityError st bd s e = none)
    (hov : overlapsConfirmed st.bookings bd s e = false) :
    ∃ b : Booking,
      create_booking st bd s e u n now =
        (.ok b, { st with bookings := st.bookings ++ [b], nextId := st.nextId + 1 })
      ∧ b.status = "confirmed" ∧ b.user_id = u ∧ b.booking_date = bd
      ∧ b.start_time = s ∧ b.end_time = e ∧ b.notes = n := by
  unfold create_booking
  rw [if_neg (show ¬s ≥ e from not_le.mpr hlt), hmn, hma, hav, hov]
  simp only [Bool.false_eq_true, if_false]
  exact ⟨_, rfl, rfl, rfl, rfl, rfl, rfl, rfl⟩

lemma availabilityError_mem (st : StoreState) (bd : CalDate) (s e : WallTime)
    (msg : String) (h : availabilityError st bd s e = some msg) :
    msg = "No availability on this date" ∨ msg = "Booking outside available hours" := by
  unfold availabilityError at h
  split at h
  · exact absurd h (by simp)
  · dsimp only at h
    split at h
    · exact Or.inl (Option.some.inj h).symm
    · split at h
      · split at h
        · exact Or.inr (Option.some.inj h).symm
        · exact absurd h (by simp)
      · exact absurd h (by simp)

/-- When the minimum-notice gate is not triggered, `create_booking` never
reports the notice rejection (every other outcome carries a different
message). -/
lemma create_ne_notice (st : StoreState) (bd : CalDate) (s e : WallTime)
    (u : String) (n : Option String) (now : Int)
    (hmn : minNoticeViolation st.settings bd s now = false) :
    (create_booking st bd s e u n now).1 ≠ .err "Booking too close to start time" := by
  by_cases hse : e ≤ s
  · rw [create_eq_malformed st bd s e u n now hse]
    simp
  · have hlt : s < e := not_le.mp hse
    by_cases hma : maxAdvanceViolation st.settings bd s now = true
    · rw [create_eq_advance st bd s e u n now hlt hmn hma]
      simp
    · rw [Bool.not_eq_true] at hma
      rcases hav : availabilityError st bd s e with _ | msg
      · by_cases hov : overlapsConfirmed st.bookings bd s e = true
        · rw [create_eq_overlap st bd s e u n now hlt hmn hma hav hov]
          simp
        · rw [Bool.not_eq_true] at hov
          obtain ⟨b, heq, -⟩ := create_eq_success st bd s e u n now hlt hmn hma hav hov
          rw [heq]
          simp
      · rw [create_eq_avail st bd s e u n now hlt hmn hma msg hav]
        rcases availabilityError_mem st bd s e msg hav with h | h <;> simp [h]

/-- When the maximum-advance gate is not triggered, `create_booking` never
reports the advance rejection. -/
lemma create_ne_advance (st : StoreState) (bd : CalDate) (s e : WallTime)
    (u : String) (n : Option String) (now : Int)
    (hma : maxAdvanceViolation st.settings bd s now = false) :
    (create_booking st bd s e u n now).1 ≠ .err "Booking too far in the future" := by
  by_cases hse : e ≤ s
  · rw [create_eq_malformed st bd s e u n now hse]
    simp
  · have hlt : s < e := not_le.mp hse
    by_cases hmn : minNoticeViolation st.settings bd s now = true
    · rw [create_eq_notice st bd s e u n now hlt hmn]
      simp
    · rw [Bool.not_eq_true] at hmn
      rcases hav : availabilityError st bd s e with _ | msg
      · by_cases hov : overlapsConfirmed st.bookings bd s e = true
        · rw [create_eq_overlap st bd s e u n now hlt hmn hma hav hov]
          simp
        · rw [Bool.not_eq_true] at hov
          obtain ⟨b, heq, -⟩ := create_eq_success st bd s e u n now hlt hmn hma hav hov
          rw [heq]
          simp
      · rw [create_eq_avail st bd s e u n now hlt hmn hma msg hav]
        rcases availabilityError_mem st bd s e msg hav with h | h <;> simp [h]

theorem c2_validation_order (st : StoreState) (bd : CalDate) (s e : WallTime)
    (u : String) (n : Option String) (now : Int) :
    (e ≤ s → create_booking st bd s e u n now = (.err "start_time must be before end_time", st))
  ∧ (s < e → minNoticeViolation st.settings bd s now = true →
       create_booking st bd s e u n now = (.err "Booking too close to start time", st))
  ∧ (s < e → minNoticeViolation st.settings bd s now = false →
       maxAdvanceViolation st.settings bd s now = true →
       create_booking st bd s e u n now = (.err "Booking too far in the future", st))
  ∧ (s < e → minNoticeViolation st.settings bd s now = false →
       maxAdvanceViolation st.settings bd s now = false →
       ∀ msg, availabilityError st bd s e = some msg →
       create_booking st bd s e u n now = (.err msg, st))
  ∧ (allowOutside st.settings = true → availabilityError st bd s e = none)
  ∧ (s < e → minNoticeViolation st.settings bd s now = false →
       maxAdvanceViolation st.settings bd s now = false →
       availabilityError st bd s e = none →
       overlapsConfirmed st.bookings bd s e = true →
       create_booking st bd s e u n now = (.err "Time overlaps with an existing booking", st))
  ∧ (s < e → minNoticeViolation st.settings bd s now = false →
       maxAdvanceViolation st.settings bd s now = false →
       availabilityError st bd s e = none →
       overlapsConfirmed st.bookings bd s e = false →
       ∃ b : Booking,
         create_booking st bd s e u n now =
           (.ok b, { st with bookings := st.bookings ++ [b], nextId := st.nextId + 1 })
         ∧ b.status = "confirmed" ∧ b.user_id = u ∧ b.booking_date = bd
         ∧ b.start_time = s ∧ b.end_time = e ∧ b.notes = n)
  ∧ createRejectionMessages.Nodup := by
  refine ⟨create_eq_malformed st bd s e u n now,
    create_eq_notice st bd s e u n now,
    create_eq_advance st bd s e u n now,
    fun hlt hmn hma msg => create_eq_avail st bd s e u n now hlt hmn hma msg,
    ?_,
    create_eq_overlap st bd s e u n now,
    create_eq_success st bd s e u n now,
    by decide⟩
  intro h
  unfold availabilityError
  rw [if_pos h]

/-- Auxiliary witness for C2: a degenerate interval is rejected first, with
the malformed-interval reason. -/
theorem c2_witness :
    create_booking stEmpty 0 600 600 "u" none 0 =
      (.err "start_time must be before end_time", stEmpty) :=
  (c2_validation_order stEmpty 0 600 600 "u" none 0).1 (le_refl 600)

lemma cancel_booking_inv (st : StoreState) (bid : Nat) (uid : Option String) (now : Int)
    (h : (cancel_booking st bid uid now).1 = true) :
    ∃ b, st.bookings.find?
        (fun x => x.id == bid && x.status == "confirmed" && ownerMatches uid x) = some b
      ∧ (uid.isSome && cancellationNoticeBlocked st.settings b now) = false
      ∧ cancel_booking st bid uid now =
          (true, { st with bookings := st.bookings.map (cancelMark bid now) }) := by
  unfold cancel_booking at h ⊢
  rcases hf : st.bookings.find?
      (fun x => x.id == bid && x.status == "confirmed" && ownerMatches uid x) with _ | b
  · simp only [hf] at h
    exact absurd h (by simp)
  · simp only [hf] at h ⊢
    by_cases h1 : (match st.settings with
      | some s => !s.allow_cancellation | none => false) = true
    · rw [if_pos h1] at h
      simp at h
    · rw [if_neg h1] at h ⊢
      by_cases h2 : (uid.isSome && cancellationNoticeBlocked st.settings b now) = true
      · rw [if_pos h2] at h
        simp at h
      · rw [if_neg h2] at h ⊢
        exact ⟨b, rfl, by simpa using h2, rfl⟩

lemma find?_confirmed_map_cancelMark (bs : List Booking) (bid : Nat) (now : Int)
    (uid : Option String) :
    (bs.map (cancelMark bid now)).find?
      (fun x => x.id == bid && x.status == "confirmed" && ownerMatches uid x) = none := by
  rw [List.find?_eq_none]
  intro x hx
  obtain ⟨y, hy, rfl⟩ := List.mem_map.mp hx
  unfold cancelMark
  by_cases hid : (y.id == bid) = true
  · rw [if_pos hid]
    simp
  · rw [if_neg hid]
    rw [Bool.not_eq_true] at hid
    simp [hid]

/-- C5: `cancel_booking` succeeds only for an existing `confirmed` booking
(matching the owner filter), a second cancellation of the same booking is
rejected rather than being a no-op success, and neither operation ever moves
a row out of the `cancelled` status. -/
theorem c5_cancellation_terminal (st : StoreState) (bid : Nat) (uid : Option String)
    (now : Int) :
    ((cancel_booking st bid uid now).1 = true →
       ∃ b, b ∈ st.bookings ∧ b.id = bid ∧ b.status = "confirmed" ∧ ownerMatches uid b = true)
  ∧ ((cancel_booking st bid uid now).1 = true →
       ∀ uid2 now2, (cancel_booking (cancel_booking st bid uid now).2 bid uid2 now2).1 = false)
  ∧ (∀ (i : Nat) (b : Booking), st.bookings[i]? = some b → b.status = "cancelled" →
       ∃ b2, (cancel_booking st bid uid now).2.bookings[i]? = some b2 ∧ b2.status = "cancelled")
  ∧ (∀ (bd : CalDate) (s e : WallTime) (u : String) (n : Option String) (i : Nat)
       (b : Booking), st.bookings[i]? = some b → b.status = "cancelled" →
       ∃ b2, (create_booking st bd s e u n now).2.bookings[i]? = some b2 ∧
         b2.status = "cancelled") := by
  refine ⟨?_, ?_, ?_, ?_⟩
  · intro h
    obtain ⟨b, hf, -, -⟩ := cancel_booking_inv st bid uid now h
    have hmem := List.mem_of_find?_eq_some hf
    have hp := List.find?_some hf
    simp only [Bool.and_eq_true, beq_iff_eq] at hp
    exact ⟨b, hmem, hp.1.1, hp.1.2, hp.2⟩
  · intro h uid2 now2
    obtain ⟨b, -, -, heq⟩ := cancel_booking_inv st bid uid now h
    rw [heq]
    unfold cancel_booking
    dsimp only
    rw [find?_confirmed_map_cancelMark]
  · intro i b hb hcanc
    unfold cancel_booking
    split
    · exact ⟨b, hb, hcanc⟩
    split
    · exact ⟨b, hb, hcanc⟩
    split
    · exact ⟨b, hb, hcanc⟩
    · refine ⟨cancelMark bid now b, ?_, ?_⟩
      · simp only []
        rw [List.getElem?_map, hb]
        rfl
      · unfold cancelMark
        split
        · rfl
        · exact hcanc
  · intro bd s e u n i b hb hcanc
    have hi : i < st.bookings.length := by
      by_contra hlen
      rw [List.getElem?_eq_none (by omega)] at hb
      exact Option.noConfusion hb
    unfold create_booking
    split
    · exact ⟨b, hb, hcanc⟩
    split
    · exact ⟨b, hb, hcanc⟩
    split
    · exact ⟨b, hb, hcanc⟩
    split
    · exact ⟨b, hb, hcanc⟩
    split
    · exact ⟨b, hb, hcanc⟩
    · refine ⟨b, ?_, hcanc⟩
      simp only []
      rw [List.getElem?_append, if_pos hi]
      exact hb

/-- Auxiliary witness for C5: cancelling a just-cancelled booking fails. -/
theorem c5_witness :
    (cancel_booking (cancel_booking st5 1 (some "alice") 0).2 1 (some "alice") 0).1 = false :=
  (c5_cancellation_terminal st5 1 (some "alice") 0).2.1 (by decide) (some "alice") 0

/-- C6 counterexample: with `cancellation_notice` set (to 0 minutes) and a
non-admin requester whose booking has already started (window
`bookingStart − now < cancellation_notice`), the claim requires the
cancellation to fail, yet `cancel_booking` succeeds: Python truthiness
(`settings.get("cancellation_notice_minutes")`) skips the window check for
the value 0. -/
theorem c6_counterexample :
    (st6.settings.map Settings.cancellation_notice_minutes = some (some 0))
  ∧ combineUTC 0 540 - 100000 < ((0 : Nat) : Int)
  ∧ (cancel_booking st6 1 (some "alice") 100000).1 = true := by
  decide

/-- C6 (amended): in `cancel_booking`, if `allow_cancellation` is false the
cancellation fails unconditionally (admins included); a non-admin requester
can only succeed on a booking they own; when `cancellation_notice` is set to
a nonzero number of minutes, a non-admin success implies
`bookingStart − now ≥ cancellation_notice`; administrators (no `user_id`)
bypass the cancellation-notice check entirely. -/
theorem c6_cancellation_rules (st : StoreState) (bid : Nat) (now : Int) :
    (∀ (uid : Option String) (sett : Settings), st.settings = some sett →
       sett.allow_cancellation = false → (cancel_booking st bid uid now).1 = false)
  ∧ (∀ u : String, (cancel_booking st bid (some u) now).1 = true →
       ∃ b, b ∈ st.bookings ∧ b.id = bid ∧ b.status = "confirmed" ∧ b.user_id = u)
  ∧ (∀ (u : String) (sett : Settings) (m : Nat), st.settings = some sett →
       sett.cancellation_notice_minutes = some m → m ≠ 0 →
       (cancel_booking st bid (some u) now).1 = true →
       ∃ b, b ∈ st.bookings ∧ b.id = bid ∧ b.status = "confirmed" ∧ b.user_id = u ∧
         (m : Int) ≤ combineUTC b.booking_date b.start_time - now)
  ∧ (∀ (sett : Settings) (x y : Option Nat),
       (cancel_booking
          { st with settings := some { sett with cancellation_notice_minutes := x } }
          bid none now).1
       = (cancel_booking
          { st with settings := some { sett with cancellation_notice_minutes := y } }
          bid none now).1) := by
  refine ⟨?_, ?_, ?_, ?_⟩
  · intro uid sett hs hac
    unfold cancel_booking
    split
    · rfl
    · simp [hs, hac]
  · intro u h
    obtain ⟨b, hf, -, -⟩ := cancel_booking_inv st bid (some u) now h
    have hmem := List.mem_of_find?_eq_some hf
    have hp := List.find?_some hf
    simp only [Bool.and_eq_true, beq_iff_eq, ownerMatches] at hp
    exact ⟨b, hmem, hp.1.1, hp.1.2, hp.2⟩
  · intro u sett m hs hm hm0 h
    obtain ⟨b, hf, h2, -⟩ := cancel_booking_inv st bid (some u) now h
    have hmem := List.mem_of_find?_eq_some hf
    have hp := List.find?_some hf
    simp only [Bool.and_eq_true, beq_iff_eq, ownerMatches] at hp
    have hnb : cancellationNoticeBlocked st.settings b now = false := by
      simpa using h2
    unfold cancellationNoticeBlocked at hnb
    rw [hs] at hnb
    simp only [hm] at hnb
    simp only [bne_iff_ne, ne_eq, decide_eq_true_eq, Bool.and_eq_false_iff,
      decide_eq_false_iff_not, not_lt] at hnb
    rcases hnb with h0 | hge
    · exact absurd (by simpa using h0) hm0
    · exact ⟨b, hmem, hp.1.1, hp.1.2, hp.2, hge⟩
  · intro sett x y
    unfold cancel_booking
    dsimp only
    rcases hf : st.bookings.find?
        (fun b => b.id == bid && b.status == "confirmed" && ownerMatches none b) with _ | b
    · simp only [hf]
    · simp only [hf]
      by_cases hac : sett.allow_cancellation
      · simp [hac]
      · simp [hac]

/-- Auxiliary witness for C6: with cancellation disallowed globally even an
admin request (no owner filter) fails. -/
theorem c6_witness : (cancel_booking st6b 1 none 0).1 = false :=
  (c6_cancellation_rules st6b 1 0).1 none sett6 rfl rfl

/-- C4 counterexample: `min_booking_notice` is set — to 0 minutes — and the
booking starts before `now`, so `bookingStart − now < min_notice`; the claim
then demands the notice rejection, but `create_booking` does not reject
(Python truthiness skips the check for the value 0). -/
theorem c4_counterexample :
    (st4.settings.map Settings.min_booking_notice_minutes = some (some 0))
  ∧ (540 : WallTime) < 600
  ∧ combineUTC 0 540 - 100000 < ((0 : Nat) : Int)
  ∧ (create_booking st4 0 540 600 "u" none 100000).1 ≠ .err "Booking too close to start time" := by
  decide

/-- C4 (amended): for a well-formed interval, when `min_booking_notice` is set
to a nonzero number of minutes, `create_booking` rejects with the notice
violation exactly when `bookingStart − now < min_notice` (so a booking at
exactly `now + min_notice` is admitted); when `max_advance_booking` is set to
a nonzero number of days and the notice check passes, it rejects with the
advance violation exactly when `bookingStart − now > max_advance`; a null,
absent, or zero limit imposes no constraint. -/
theorem c4_notice_advance_boundaries (st : StoreState) (sett : Settings) (bd : CalDate)
    (s e : WallTime) (u : String) (n : Option String) (now : Int)
    (hs : st.settings = some sett) (hlt : s < e) :
    (∀ m : Nat, sett.min_booking_notice_minutes = some m → m ≠ 0 →
       ((create_booking st bd s e u n now).1 = .err "Booking too close to start time"
         ↔ combineUTC bd s - now < (m : Int)))
  ∧ (sett.min_booking_notice_minutes = none ∨ sett.min_booking_notice_minutes = some 0 →
       (create_booking st bd s e u n now).1 ≠ .err "Booking too close to start time")
  ∧ (∀ a : Nat, sett.max_advance_booking_days = some a → a ≠ 0 →
       minNoticeViolation st.settings bd s now = false →
       ((create_booking st bd s e u n now).1 = .err "Booking too far in the future"
         ↔ combineUTC bd s - now > (a : Int) * 1440))
  ∧ (sett.max_advance_booking_days = none ∨ sett.max_advance_booking_days = some 0 →
       (create_booking st bd s e u n now).1 ≠ .err "Booking too far in the future") := by
  have hmn_eq : ∀ m : Nat, sett.min_booking_notice_minutes = some m →
      minNoticeViolation st.settings bd s now
        = ((m != 0) && decide (combineUTC bd s - now < (m : Int))) := by
    intro m hm
    simp only [minNoticeViolation, hs, hm]
  have hma_eq : ∀ a : Nat, sett.max_advance_booking_days = some a →
      maxAdvanceViolation st.settings bd s now
        = ((a != 0) && decide (combineUTC bd s - now > (a : Int) * 1440)) := by
    intro a ha
    simp only [maxAdvanceViolation, hs, ha]
  refine ⟨?_, ?_, ?_, ?_⟩
  · intro m hm hm0
    have hb : (m != 0) = true := by simpa using hm0
    constructor
    · intro h
      by_contra hc
      have hmn : minNoticeViolation st.settings bd s now = false := by
        rw [hmn_eq m hm, decide_eq_false hc, Bool.and_false]
      exact create_ne_notice st bd s e u n now hmn h
    · intro hc
      have hmn : minNoticeViolation st.settings bd s now = true := by
        rw [hmn_eq m hm, hb, decide_eq_true hc]
        rfl
      rw [create_eq_notice st bd s e u n now hlt hmn]
  · intro hm
    have hmn : minNoticeViolation st.settings bd s now = false := by
      rcases hm with hm | hm
      · simp [minNoticeViolation, hs, hm]
      · simp [minNoticeViolation, hs, hm]
    exact create_ne_notice st bd s e u n now hmn
  · intro a ha ha0 hmn
    have hb : (a != 0) = true := by simpa using ha0
    constructor
    · intro h
      by_contra hc
      have hma : maxAdvanceViolation st.settings bd s now = false := by
        rw [hma_eq a ha, decide_eq_false hc, Bool.and_false]
      exact create_ne_advance st bd s e u n now hma h
    · intro hc
      have hma : maxAdvanceViolation st.settings bd s now = true := by
        rw [hma_eq a ha, hb, decide_eq_true hc]
        rfl
      rw [create_eq_advance st bd s e u n now hlt hmn hma]
  · intro ha
    have hma : maxAdvanceViolation st.settings bd s now = false := by
      rcases ha with ha | ha
      · simp [maxAdvanceViolation, hs, ha]
      · simp [maxAdvanceViolation, hs, ha]
    exact create_ne_advance st bd s e u n now hma

/-- Auxiliary witness for C4: with a 30-minute notice configured, a booking
that starts in the past is rejected with the notice reason. -/
theorem c4_witness :
    (create_booking st4w 0 540 600 "u" none 100000).1 = .err "Booking too close to start time" :=
  ((c4_notice_advance_boundaries st4w sett4 0 540 600 "u" none 100000 rfl
    (by decide)).1 30 rfl (by decide)).mpr (by decide)

/-- C7 counterexample: the policy's stored time zone is UTC+2 (offset 120
minutes) and `min_booking_notice` is 30 minutes; interpreting the booking's
wall time in that zone gives `bookingStart − now < min_notice`, so the claim
demands a notice rejection, but `create_booking` (which always combines with
`timezone.utc`) does not reject. -/
theorem c7_counterexample :
    (st7.settings.map Settings.tz_offset_minutes = some 120)
  ∧ (st7.settings.map Settings.min_booking_notice_minutes = some (some 30))
  ∧ combineWithZone 120 0 600 - 500 < ((30 : Nat) : Int)
  ∧ (create_booking st7 0 600 660 "u" none 500).1 ≠ .err "Booking too close to start time" := by
  decide

/-- C7 (amended): the temporal policy checks combine the booking's date and
wall time as UTC, unconditionally: each gate's value is unchanged by the
configured time zone, and for a nonzero configured limit the gate's
condition compares `now` against the UTC combination `combineUTC`. -/
theorem c7_checks_use_utc :
    (∀ (tz1 tz2 : Int) (mn mx cn : Option Nat) (ac ao : Bool) (bd : CalDate)
       (s : WallTime) (now : Int),
       minNoticeViolation (some ⟨tz1, mn, mx, ac, cn, ao⟩) bd s now
         = minNoticeViolation (some ⟨tz2, mn, mx, ac, cn, ao⟩) bd s now)
  ∧ (∀ (tz1 tz2 : Int) (mn mx cn : Option Nat) (ac ao : Bool) (bd : CalDate)
       (s : WallTime) (now : Int),
       maxAdvanceViolation (some ⟨tz1, mn, mx, ac, cn, ao⟩) bd s now
         = maxAdvanceViolation (some ⟨tz2, mn, mx, ac, cn, ao⟩) bd s now)
  ∧ (∀ (tz1 tz2 : Int) (mn mx cn : Option Nat) (ac ao : Bool) (b : Booking) (now : Int),
       cancellationNoticeBlocked (some ⟨tz1, mn, mx, ac, cn, ao⟩) b now
         = cancellationNoticeBlocked (some ⟨tz2, mn, mx, ac, cn, ao⟩) b now)
  ∧ (∀ (sett : Settings) (m : Nat) (bd : CalDate) (s : WallTime) (now : Int),
       sett.min_booking_notice_minutes = some m → m ≠ 0 →
       (minNoticeViolation (some sett) bd s now = true ↔ combineUTC bd s - now < (m : Int)))
  ∧ (∀ (sett : Settings) (a : Nat) (bd : CalDate) (s : WallTime) (now : Int),
       sett.max_advance_booking_days = some a → a ≠ 0 →
       (maxAdvanceViolation (some sett) bd s now = true
         ↔ combineUTC bd s - now > (a : Int) * 1440))
  ∧ (∀ (sett : Settings) (m : Nat) (b : Booking) (now : Int),
       sett.cancellation_notice_minutes = some m → m ≠ 0 →
       (cancellationNoticeBlocked (some sett) b now = true
         ↔ combineUTC b.booking_date b.start_time - now < (m : Int))) := by
  refine ⟨fun _ _ _ _ _ _ _ _ _ _ => rfl, fun _ _ _ _ _ _ _ _ _ _ => rfl,
    fun _ _ _ _ _ _ _ _ _ => rfl, ?_, ?_, ?_⟩
  · intro sett m bd s now hm hm0
    simp [minNoticeViolation, hm, hm0]
  · intro sett a bd s now ha ha0
    simp [maxAdvanceViolation, ha, ha0]
  · intro sett m b now hm hm0
    simp [cancellationNoticeBlocked, hm, hm0]

/-- Auxiliary witness for C7: a concrete nonzero notice gate evaluated via
the UTC combination. -/
theorem c7_witness :
    minNoticeViolation (some sett4) 0 540 100000 = true :=
  ((c7_checks_use_utc).2.2.2.1 sett4 30 0 540 100000 rfl (by decide)).mpr (by decide)

/-- C8 counterexample: two bookings created in the order id 1 (date 5) then
id 2 (date 3); newest-first by creation order would list id 2 first, but
`get_all_bookings` orders by `booking_date` descending and lists id 1 first. -/
theorem c8_counterexample :
    get_all_bookings st8 none none none ≠ st8.bookings.reverse := by
  decide

/-- C8 (amended): booking listings are ordered by `booking_date` descending
(newest date first), not by creation order; in `get_all_bookings` the
`date_from`, `date_to` and `status` filters are conjunctive and each
optional, and `get_user_bookings` restricts to the one owner. -/
theorem c8_listings_order_filters (st : StoreState) (df dt : Option CalDate)
    (sf : Option String) (uid : String) :
    List.Sorted bookingGE (get_all_bookings st df dt sf)
  ∧ (∀ b : Booking, b ∈ get_all_bookings st df dt sf ↔
       b ∈ st.bookings ∧ passesDateFrom df b = true ∧ passesDateTo dt b = true
         ∧ passesStatus sf b = true)
  ∧ List.Sorted bookingGE (get_user_bookings st uid)
  ∧ (∀ b : Booking, b ∈ get_user_bookings st uid ↔ b ∈ st.bookings ∧ b.user_id = uid) := by
  refine ⟨List.sorted_insertionSort _ _, ?_, List.sorted_insertionSort _ _, ?_⟩
  · intro b
    unfold get_all_bookings
    rw [List.Perm.mem_iff (List.perm_insertionSort _ _), List.mem_filter]
    simp [and_assoc]
  · intro b
    unfold get_user_bookings
    rw [List.Perm.mem_iff (List.perm_insertionSort _ _), List.mem_filter]
    simp

end FalCalendar
